import Mathlib

/-!
Verification of the threshold-based stress scoring engine in
`src/benchmark_system.py`.

The Python code computes over IEEE doubles; here finite float values are
modelled as rationals (`ℚ`), and a Python division (which raises
`ZeroDivisionError` on a zero denominator) is modelled as an `Option ℚ`
returning `none` exactly when the denominator is zero.  NaN semantics, where
a claim needs them, is modelled by a separate `PyFloat` type whose
comparisons mirror Python's (every comparison involving NaN is false).
-/

namespace BenchmarkSystem

/-- Threshold constants from `benchmark_system.py` (RMSSD row). -/
def RMSSD_RELAXED : ℚ := 60
def RMSSD_NORMAL : ℚ := 40
def RMSSD_ELEVATED : ℚ := 20

def SDNN_RELAXED : ℚ := 80
def SDNN_NORMAL : ℚ := 50
def SDNN_ELEVATED : ℚ := 30

def PNN50_RELAXED : ℚ := 25
def PNN50_NORMAL : ℚ := 10
def PNN50_ELEVATED : ℚ := 3

def SI_RELAXED : ℚ := 100
def SI_NORMAL : ℚ := 250
def SI_ELEVATED : ℚ := 500

def LFHF_RELAXED : ℚ := 1/2
def LFHF_NORMAL : ℚ := 2
def LFHF_ELEVATED : ℚ := 4

def HF_RELAXED : ℚ := 400
def HF_NORMAL : ℚ := 150
def HF_ELEVATED : ℚ := 40

def HR_RELAXED : ℚ := 65
def HR_NORMAL : ℚ := 80
def HR_ELEVATED : ℚ := 95

/-- The seven named HRV features, the keys of the `WEIGHTS` dict. -/
inductive Feature where
  | rmssd | sdnn | pnn50 | si | lfhf | hf | hr
deriving DecidableEq

/-- The `WEIGHTS` dict of `benchmark_system.py`. -/
def WEIGHTS : Feature → ℚ
  | .rmssd => 25/100
  | .sdnn => 15/100
  | .pnn50 => 10/100
  | .si => 15/100
  | .lfhf => 15/100
  | .hf => 10/100
  | .hr => 10/100

/-- Python float division: raises (`none`) when the denominator is zero. -/
def pdiv (a b : ℚ) : Option ℚ :=
  if b = 0 then none else some (a / b)

/-- `inverted_piecewise(value, relaxed, normal, elevated)` from
`benchmark_system.py`, with each Python division modelled by `pdiv`. -/
def inverted_piecewise (value relaxed normal elevated : ℚ) : Option ℚ :=
  if value ≥ relaxed then
    (pdiv (value - relaxed) relaxed).map (fun q => max 0 (12 * (1 - q)))
  else if value ≥ normal then
    (pdiv (relaxed - value) (relaxed - normal)).map (fun q => 13 + q * 24)
  else if value ≥ elevated then
    (pdiv (normal - value) (normal - elevated)).map (fun q => 38 + q * 24)
  else if elevated > 0 then
    (pdiv (elevated - value) elevated).map (fun t => 63 + min 1 t * 37)
  else
    some (63 + 1 * 37)

/-- `direct_piecewise(value, relaxed, normal, elevated)` from
`benchmark_system.py`. -/
def direct_piecewise (value relaxed normal elevated : ℚ) : Option ℚ :=
  if value ≤ relaxed then
    if relaxed > 0 then (pdiv value relaxed).map (fun q => q * 12) else some 0
  else if value ≤ normal then
    (pdiv (value - relaxed) (normal - relaxed)).map (fun q => 13 + q * 24)
  else if value ≤ elevated then
    (pdiv (value - normal) (elevated - normal)).map (fun q => 38 + q * 24)
  else if elevated > 0 then
    (pdiv (value - elevated) elevated).map (fun t => 63 + min 1 t * 37)
  else
    some (63 + 1 * 37)

/-- Python's `round` on a float with no `ndigits`: round half to even. -/
def roundHalfEven (q : ℚ) : ℤ :=
  if q - ⌊q⌋ < 1/2 then ⌊q⌋
  else if q - ⌊q⌋ > 1/2 then ⌊q⌋ + 1
  else if ⌊q⌋ % 2 = 0 then ⌊q⌋ else ⌊q⌋ + 1

/-- The `composite` value of `compute_stress_score`: the seven sub-scores
(each computed against the fixed threshold table) weighted by `WEIGHTS` and
summed; `none` when some sub-score raised a division error. -/
def raw_composite (rmssd sdnn pnn50 si lfhf hf hr : ℚ) : Option ℚ := do
  let s_rmssd ← inverted_piecewise rmssd RMSSD_RELAXED RMSSD_NORMAL RMSSD_ELEVATED
  let s_sdnn ← inverted_piecewise sdnn SDNN_RELAXED SDNN_NORMAL SDNN_ELEVATED
  let s_pnn50 ← inverted_piecewise pnn50 PNN50_RELAXED PNN50_NORMAL PNN50_ELEVATED
  let s_si ← direct_piecewise si SI_RELAXED SI_NORMAL SI_ELEVATED
  let s_lfhf ← direct_piecewise lfhf LFHF_RELAXED LFHF_NORMAL LFHF_ELEVATED
  let s_hf ← inverted_piecewise hf HF_RELAXED HF_NORMAL HF_ELEVATED
  let s_hr ← direct_piecewise hr HR_RELAXED HR_NORMAL HR_ELEVATED
  pure (s_rmssd * WEIGHTS .rmssd + s_sdnn * WEIGHTS .sdnn +
        s_pnn50 * WEIGHTS .pnn50 + s_si * WEIGHTS .si +
        s_lfhf * WEIGHTS .lfhf + s_hf * WEIGHTS .hf + s_hr * WEIGHTS .hr)

/-- `compute_stress_score` from `benchmark_system.py`:
`int(round(max(0, min(100, composite))))`. -/
def compute_stress_score (rmssd sdnn pnn50 si lfhf hf hr : ℚ) : Option ℤ :=
  (raw_composite rmssd sdnn pnn50 si lfhf hf hr).map
    (fun composite => roundHalfEven (max 0 (min 100 composite)))

/-- The value `inverted_piecewise` returns when none of its divisions
faults; junk (total `ℚ` division) elsewhere. -/
def invertedScore (value relaxed normal elevated : ℚ) : ℚ :=
  if value ≥ relaxed then max 0 (12 * (1 - (value - relaxed) / relaxed))
  else if value ≥ normal then 13 + (relaxed - value) / (relaxed - normal) * 24
  else if value ≥ elevated then 38 + (normal - value) / (normal - elevated) * 24
  else if elevated > 0 then 63 + min 1 ((elevated - value) / elevated) * 37
  else 63 + 1 * 37

/-- The value `direct_piecewise` returns when none of its divisions faults. -/
def directScore (value relaxed normal elevated : ℚ) : ℚ :=
  if value ≤ relaxed then (if relaxed > 0 then value / relaxed * 12 else 0)
  else if value ≤ normal then 13 + (value - relaxed) / (normal - relaxed) * 24
  else if value ≤ elevated then 38 + (value - normal) / (elevated - normal) * 24
  else if elevated > 0 then 63 + min 1 ((value - elevated) / elevated) * 37
  else 63 + 1 * 37

/-- The weighted composite of `compute_stress_score`, written with the total
score functions; equals the `raw_composite` value whenever no division
faults. -/
def compositeScore (rmssd sdnn pnn50 si lfhf hf hr : ℚ) : ℚ :=
  invertedScore rmssd RMSSD_RELAXED RMSSD_NORMAL RMSSD_ELEVATED * WEIGHTS .rmssd +
  invertedScore sdnn SDNN_RELAXED SDNN_NORMAL SDNN_ELEVATED * WEIGHTS .sdnn +
  invertedScore pnn50 PNN50_RELAXED PNN50_NORMAL PNN50_ELEVATED * WEIGHTS .pnn50 +
  directScore si SI_RELAXED SI_NORMAL SI_ELEVATED * WEIGHTS .si +
  directScore lfhf LFHF_RELAXED LFHF_NORMAL LFHF_ELEVATED * WEIGHTS .lfhf +
  invertedScore hf HF_RELAXED HF_NORMAL HF_ELEVATED * WEIGHTS .hf +
  directScore hr HR_RELAXED HR_NORMAL HR_ELEVATED * WEIGHTS .hr

/-- Modelled from the spec: `FeatureWeights` construction-time validation.
The code under `src/` holds only the raw `WEIGHTS` dict literal with no
constructor or validation; spec section 7 (WeightSumMismatch) requires
construction to fail fast when the seven configured weights do not sum to
1.0 within tolerance 1e-6. -/
def FeatureWeights_construct (w : Feature → ℚ) : Option (Feature → ℚ) :=
  if |w .rmssd + w .sdnn + w .pnn50 + w .si + w .lfhf + w .hf + w .hr - 1|
      ≤ 1/1000000
  then some w else none

/-- Seven weights that sum to 97/100 instead of 1 (the HR weight lowered). -/
def badWeights : Feature → ℚ
  | .hr => 7/100
  | x => WEIGHTS x

/-- A Python float that is either NaN or a finite value (a rational). -/
inductive PyFloat where
  | nan : PyFloat
  | fin : ℚ → PyFloat
deriving DecidableEq

/-- Python `<` on floats: false whenever either side is NaN. -/
def pyLt : PyFloat → PyFloat → Bool
  | .fin a, .fin b => decide (a < b)
  | _, _ => false

/-- Python `<=` on floats: false whenever either side is NaN. -/
def pyLe : PyFloat → PyFloat → Bool
  | .fin a, .fin b => decide (a ≤ b)
  | _, _ => false

/-- Python `>=` on floats. -/
def pyGe (a b : PyFloat) : Bool := pyLe b a

def pyAdd : PyFloat → PyFloat → PyFloat
  | .fin a, .fin b => .fin (a + b)
  | _, _ => .nan

def pySub : PyFloat → PyFloat → PyFloat
  | .fin a, .fin b => .fin (a - b)
  | _, _ => .nan

def pyMul : PyFloat → PyFloat → PyFloat
  | .fin a, .fin b => .fin (a * b)
  | _, _ => .nan

/-- Python float division: `x / 0.0` raises `ZeroDivisionError` (`none`)
even for NaN numerators; a NaN anywhere else propagates. -/
def pyDiv : PyFloat → PyFloat → Option PyFloat
  | .fin a, .fin b => if b = 0 then none else some (.fin (a / b))
  | .nan, .fin b => if b = 0 then none else some .nan
  | _, .nan => some .nan

/-- Python `min(a, b)`: returns `b` only when `b < a`, so `min(x, nan) = x`
and `min(nan, x) = nan`. -/
def pyMin (a b : PyFloat) : PyFloat := if pyLt b a then b else a

/-- Python `max(a, b)`: returns `b` only when `a < b`. -/
def pyMax (a b : PyFloat) : PyFloat := if pyLt a b then b else a

/-- Python `round` on a float: half to even; raises (`none`) on NaN. -/
def pyRound : PyFloat → Option ℤ
  | .fin q => some (roundHalfEven q)
  | .nan => none

/-- `inverted_piecewise` evaluated with Python float comparison semantics,
so that NaN inputs can be reasoned about. -/
def inverted_piecewise_py (value relaxed normal elevated : PyFloat) :
    Option PyFloat :=
  if pyGe value relaxed then
    (pyDiv (pySub value relaxed) relaxed).map
      (fun q => pyMax (.fin 0) (pyMul (.fin 12) (pySub (.fin 1) q)))
  else if pyGe value normal then
    (pyDiv (pySub relaxed value) (pySub relaxed normal)).map
      (fun q => pyAdd (.fin 13) (pyMul q (.fin 24)))
  else if pyGe value elevated then
    (pyDiv (pySub normal value) (pySub normal elevated)).map
      (fun q => pyAdd (.fin 38) (pyMul q (.fin 24)))
  else if pyLt (.fin 0) elevated then
    (pyDiv (pySub elevated value) elevated).map
      (fun t => pyAdd (.fin 63) (pyMul (pyMin (.fin 1) t) (.fin 37)))
  else
    some (pyAdd (.fin 63) (pyMul (.fin 1) (.fin 37)))

/-- `direct_piecewise` evaluated with Python float comparison semantics. -/
def direct_piecewise_py (value relaxed normal elevated : PyFloat) :
    Option PyFloat :=
  if pyLe value relaxed then
    if pyLt (.fin 0) relaxed then
      (pyDiv value relaxed).map (fun q => pyMul q (.fin 12))
    else some (.fin 0)
  else if pyLe value normal then
    (pyDiv (pySub value relaxed) (pySub normal relaxed)).map
      (fun q => pyAdd (.fin 13) (pyMul q (.fin 24)))
  else if pyLe value elevated then
    (pyDiv (pySub value normal) (pySub elevated normal)).map
      (fun q => pyAdd (.fin 38) (pyMul q (.fin 24)))
  else if pyLt (.fin 0) elevated then
    (pyDiv (pySub value elevated) elevated).map
      (fun t => pyAdd (.fin 63) (pyMul (pyMin (.fin 1) t) (.fin 37)))
  else
    some (pyAdd (.fin 63) (pyMul (.fin 1) (.fin 37)))

/-- `compute_stress_score` over Python floats, NaN semantics included. -/
def compute_stress_score_py (rmssd sdnn pnn50 si lfhf hf hr : PyFloat) :
    Option ℤ := do
  let s_rmssd ← inverted_piecewise_py rmssd (.fin RMSSD_RELAXED)
    (.fin RMSSD_NORMAL) (.fin RMSSD_ELEVATED)
  let s_sdnn ← inverted_piecewise_py sdnn (.fin SDNN_RELAXED)
    (.fin SDNN_NORMAL) (.fin SDNN_ELEVATED)
  let s_pnn50 ← inverted_piecewise_py pnn50 (.fin PNN50_RELAXED)
    (.fin PNN50_NORMAL) (.fin PNN50_ELEVATED)
  let s_si ← direct_piecewise_py si (.fin SI_RELAXED)
    (.fin SI_NORMAL) (.fin SI_ELEVATED)
  let s_lfhf ← direct_piecewise_py lfhf (.fin LFHF_RELAXED)
    (.fin LFHF_NORMAL) (.fin LFHF_ELEVATED)
  let s_hf ← inverted_piecewise_py hf (.fin HF_RELAXED)
    (.fin HF_NORMAL) (.fin HF_ELEVATED)
  let s_hr ← direct_piecewise_py hr (.fin HR_RELAXED)
    (.fin HR_NORMAL) (.fin HR_ELEVATED)
  let composite :=
    pyAdd (pyAdd (pyAdd (pyAdd (pyAdd (pyAdd
      (pyMul s_rmssd (.fin (WEIGHTS .rmssd)))
      (pyMul s_sdnn (.fin (WEIGHTS .sdnn))))
      (pyMul s_pnn50 (.fin (WEIGHTS .pnn50))))
      (pyMul s_si (.fin (WEIGHTS .si))))
      (pyMul s_lfhf (.fin (WEIGHTS .lfhf))))
      (pyMul s_hf (.fin (WEIGHTS .hf))))
      (pyMul s_hr (.fin (WEIGHTS .hr)))
  pyRound (pyMax (.fin 0) (pyMin (.fin 100) composite))

lemma inverted_piecewise_eq_some (v r n e : ℚ) (h1 : r ≠ 0) (h2 : r - n ≠ 0)
    (h3 : n - e ≠ 0) :
    inverted_piecewise v r n e = some (invertedScore v r n e) := by
  unfold inverted_piecewise invertedScore
  split_ifs <;>
    first
      | rfl
      | (simp [pdiv, h1]; done)
      | (simp [pdiv, h2]; done)
      | (simp [pdiv, h3]; done)
      | (simp [pdiv, show e ≠ 0 by linarith]; done)

lemma direct_piecewise_eq_some (v r n e : ℚ) (h2 : n - r ≠ 0) (h3 : e - n ≠ 0) :
    direct_piecewise v r n e = some (directScore v r n e) := by
  unfold direct_piecewise directScore
  split_ifs <;>
    first
      | rfl
      | (simp [pdiv, h2]; done)
      | (simp [pdiv, h3]; done)
      | (simp [pdiv, show r ≠ 0 by linarith]; done)
      | (simp [pdiv, show e ≠ 0 by linarith]; done)

lemma invertedScore_mem (r n e : ℚ) (hrn : n < r) (hne : e < n) (he : 0 < e)
    (v : ℚ) : 0 ≤ invertedScore v r n e ∧ invertedScore v r n e ≤ 100 := by
  have hr : 0 < r := lt_trans (lt_trans he hne) hrn
  unfold invertedScore
  by_cases hA : v ≥ r
  · rw [if_pos hA]
    refine ⟨le_max_left 0 _, ?_⟩
    have hd : 0 ≤ (v - r) / r := div_nonneg (by linarith) hr.le
    exact max_le (by norm_num) (by nlinarith)
  · rw [if_neg hA]
    by_cases hB : v ≥ n
    · rw [if_pos hB]
      have hd0 : 0 ≤ (r - v) / (r - n) := div_nonneg (by linarith) (by linarith)
      have hd1 : (r - v) / (r - n) ≤ 1 :=
        (div_le_one (by linarith)).mpr (by linarith)
      constructor <;> nlinarith
    · rw [if_neg hB]
      by_cases hC : v ≥ e
      · rw [if_pos hC]
        have hd0 : 0 ≤ (n - v) / (n - e) :=
          div_nonneg (by linarith) (by linarith)
        have hd1 : (n - v) / (n - e) ≤ 1 :=
          (div_le_one (by linarith)).mpr (by linarith)
        constructor <;> nlinarith
      · rw [if_neg hC, if_pos he]
        have ht0 : 0 ≤ min 1 ((e - v) / e) :=
          le_min (by norm_num) (div_nonneg (by linarith) he.le)
        have ht1 : min 1 ((e - v) / e) ≤ 1 := min_le_left _ _
        constructor <;> nlinarith

lemma directScore_mem (r n e : ℚ) (hr : 0 < r) (hrn : r < n) (hne : n < e)
    (v : ℚ) (hv : 0 ≤ v) :
    0 ≤ directScore v r n e ∧ directScore v r n e ≤ 100 := by
  have he : 0 < e := lt_trans (lt_trans hr hrn) hne
  unfold directScore
  by_cases hA : v ≤ r
  · rw [if_pos hA, if_pos hr]
    have hd0 : 0 ≤ v / r := div_nonneg hv hr.le
    have hd1 : v / r ≤ 1 := (div_le_one hr).mpr hA
    constructor <;> nlinarith
  · rw [if_neg hA]
    by_cases hB : v ≤ n
    · rw [if_pos hB]
      have hd0 : 0 ≤ (v - r) / (n - r) := div_nonneg (by linarith) (by linarith)
      have hd1 : (v - r) / (n - r) ≤ 1 :=
        (div_le_one (by linarith)).mpr (by linarith)
      constructor <;> nlinarith
    · rw [if_neg hB]
      by_cases hC : v ≤ e
      · rw [if_pos hC]
        have hd0 : 0 ≤ (v - n) / (e - n) :=
          div_nonneg (by linarith) (by linarith)
        have hd1 : (v - n) / (e - n) ≤ 1 :=
          (div_le_one (by linarith)).mpr (by linarith)
        constructor <;> nlinarith
      · rw [if_neg hC, if_pos he]
        have ht0 : 0 ≤ min 1 ((v - e) / e) :=
          le_min (by norm_num) (div_nonneg (by linarith) he.le)
        have ht1 : min 1 ((v - e) / e) ≤ 1 := min_le_left _ _
        constructor <;> nlinarith

lemma invertedScore_b1 (v r n e : ℚ) (h : r ≤ v) :
    invertedScore v r n e = max 0 (12 * (1 - (v - r) / r)) := by
  rw [invertedScore, if_pos h]

lemma invertedScore_b2 (v r n e : ℚ) (h1 : v < r) (h2 : n ≤ v) :
    invertedScore v r n e = 13 + (r - v) / (r - n) * 24 := by
  rw [invertedScore, if_neg (not_le.mpr h1), if_pos h2]

lemma invertedScore_b3 (v r n e : ℚ) (h1 : v < r) (h2 : v < n) (h3 : e ≤ v) :
    invertedScore v r n e = 38 + (n - v) / (n - e) * 24 := by
  rw [invertedScore, if_neg (not_le.mpr h1), if_neg (not_le.mpr h2), if_pos h3]

lemma invertedScore_b4 (v r n e : ℚ) (h1 : v < r) (h2 : v < n) (h3 : v < e)
    (he : 0 < e) :
    invertedScore v r n e = 63 + min 1 ((e - v) / e) * 37 := by
  rw [invertedScore, if_neg (not_le.mpr h1), if_neg (not_le.mpr h2),
    if_neg (not_le.mpr h3), if_pos he]

lemma invertedScore_le_12 (v r n e : ℚ) (hr : 0 < r) (h : r ≤ v) :
    invertedScore v r n e ≤ 12 := by
  rw [invertedScore_b1 v r n e h]
  have hd : 0 ≤ (v - r) / r := div_nonneg (by linarith) hr.le
  exact max_le (by norm_num) (by nlinarith)

lemma invertedScore_le_37 (v r n e : ℚ) (hrn : n < r) (hr : 0 < r) (h : n ≤ v) :
    invertedScore v r n e ≤ 37 := by
  by_cases h1 : r ≤ v
  · linarith [invertedScore_le_12 v r n e hr h1]
  · push_neg at h1
    rw [invertedScore_b2 v r n e h1 h]
    have hd : (r - v) / (r - n) ≤ 1 := (div_le_one (by linarith)).mpr (by linarith)
    linarith

lemma invertedScore_le_62 (v r n e : ℚ) (hrn : n < r) (hne : e < n) (hr : 0 < r)
    (h : e ≤ v) : invertedScore v r n e ≤ 62 := by
  by_cases h2 : n ≤ v
  · linarith [invertedScore_le_37 v r n e hrn hr h2]
  · push_neg at h2
    rw [invertedScore_b3 v r n e (by linarith) h2 h]
    have hd : (n - v) / (n - e) ≤ 1 := (div_le_one (by linarith)).mpr (by linarith)
    linarith

lemma invertedScore_ge_63 (v r n e : ℚ) (he : 0 < e) (h1 : v < r) (h2 : v < n)
    (h3 : v < e) : 63 ≤ invertedScore v r n e := by
  rw [invertedScore_b4 v r n e h1 h2 h3 he]
  have hd : 0 ≤ min 1 ((e - v) / e) :=
    le_min (by norm_num) (div_nonneg (by linarith) he.le)
  linarith

lemma invertedScore_ge_38 (v r n e : ℚ) (hne : e < n) (he : 0 < e) (h1 : v < r)
    (h2 : v < n) : 38 ≤ invertedScore v r n e := by
  by_cases h3 : e ≤ v
  · rw [invertedScore_b3 v r n e h1 h2 h3]
    have hd : 0 ≤ (n - v) / (n - e) := div_nonneg (by linarith) (by linarith)
    linarith
  · push_neg at h3
    linarith [invertedScore_ge_63 v r n e he h1 h2 h3]

lemma invertedScore_ge_13 (v r n e : ℚ) (hrn : n < r) (hne : e < n) (he : 0 < e)
    (h1 : v < r) : 13 ≤ invertedScore v r n e := by
  by_cases h2 : n ≤ v
  · rw [invertedScore_b2 v r n e h1 h2]
    have hd : 0 ≤ (r - v) / (r - n) := div_nonneg (by linarith) (by linarith)
    linarith
  · push_neg at h2
    linarith [invertedScore_ge_38 v r n e hne he h1 h2]

lemma invertedScore_anti (r n e : ℚ) (hrn : n < r) (hne : e < n) (he : 0 < e)
    (v1 v2 : ℚ) (h : v1 ≤ v2) :
    invertedScore v2 r n e ≤ invertedScore v1 r n e := by
  have hr : 0 < r := by linarith
  by_cases h2r : r ≤ v2
  · by_cases h1r : r ≤ v1
    · rw [invertedScore_b1 v2 r n e h2r, invertedScore_b1 v1 r n e h1r]
      have hx : (v1 - r) / r ≤ (v2 - r) / r := by gcongr
      exact max_le_max (le_refl 0) (by nlinarith)
    · push_neg at h1r
      linarith [invertedScore_le_12 v2 r n e hr h2r,
        invertedScore_ge_13 v1 r n e hrn hne he h1r]
  · push_neg at h2r
    have h1r : v1 < r := lt_of_le_of_lt h h2r
    by_cases h2n : n ≤ v2
    · by_cases h1n : n ≤ v1
      · rw [invertedScore_b2 v2 r n e h2r h2n, invertedScore_b2 v1 r n e h1r h1n]
        have hx : (r - v2) / (r - n) ≤ (r - v1) / (r - n) := by
          gcongr
          linarith
        linarith
      · push_neg at h1n
        linarith [invertedScore_le_37 v2 r n e hrn hr h2n,
          invertedScore_ge_38 v1 r n e hne he h1r h1n]
    · push_neg at h2n
      have h1n : v1 < n := lt_of_le_of_lt h h2n
      by_cases h2e : e ≤ v2
      · by_cases h1e : e ≤ v1
        · rw [invertedScore_b3 v2 r n e h2r h2n h2e,
            invertedScore_b3 v1 r n e h1r h1n h1e]
          have hx : (n - v2) / (n - e) ≤ (n - v1) / (n - e) := by
            gcongr
            linarith
          linarith
        · push_neg at h1e
          linarith [invertedScore_le_62 v2 r n e hrn hne hr h2e,
            invertedScore_ge_63 v1 r n e he h1r h1n h1e]
      · push_neg at h2e
        have h1e : v1 < e := lt_of_le_of_lt h h2e
        rw [invertedScore_b4 v2 r n e h2r h2n h2e he,
          invertedScore_b4 v1 r n e h1r h1n h1e he]
        have hx : (e - v2) / e ≤ (e - v1) / e := by gcongr
        have hm : min 1 ((e - v2) / e) ≤ min 1 ((e - v1) / e) :=
          min_le_min (le_refl 1) hx
        linarith

lemma directScore_b1 (v r n e : ℚ) (h : v ≤ r) (hr : 0 < r) :
    directScore v r n e = v / r * 12 := by
  rw [directScore, if_pos h, if_pos hr]

lemma directScore_b1' (v r n e : ℚ) (h : v ≤ r) (hr : ¬ 0 < r) :
    directScore v r n e = 0 := by
  rw [directScore, if_pos h, if_neg hr]

lemma directScore_b2 (v r n e : ℚ) (h1 : r < v) (h2 : v ≤ n) :
    directScore v r n e = 13 + (v - r) / (n - r) * 24 := by
  rw [directScore, if_neg (not_le.mpr h1), if_pos h2]

lemma directScore_b3 (v r n e : ℚ) (h1 : r < v) (h2 : n < v) (h3 : v ≤ e) :
    directScore v r n e = 38 + (v - n) / (e - n) * 24 := by
  rw [directScore, if_neg (not_le.mpr h1), if_neg (not_le.mpr h2), if_pos h3]

lemma directScore_b4 (v r n e : ℚ) (h1 : r < v) (h2 : n < v) (h3 : e < v)
    (he : 0 < e) :
    directScore v r n e = 63 + min 1 ((v - e) / e) * 37 := by
  rw [directScore, if_neg (not_le.mpr h1), if_neg (not_le.mpr h2),
    if_neg (not_le.mpr h3), if_pos he]

lemma directScore_b4' (v r n e : ℚ) (h1 : r < v) (h2 : n < v) (h3 : e < v)
    (he : ¬ 0 < e) : directScore v r n e = 63 + 1 * 37 := by
  rw [directScore, if_neg (not_le.mpr h1), if_neg (not_le.mpr h2),
    if_neg (not_le.mpr h3), if_neg he]

lemma directScore_le_12 (v r n e : ℚ) (hr : 0 < r) (h : v ≤ r) :
    directScore v r n e ≤ 12 := by
  rw [directScore_b1 v r n e h hr]
  have hd : v / r ≤ 1 := (div_le_one hr).mpr h
  nlinarith

lemma directScore_le_37 (v r n e : ℚ) (hrn : r < n) (hr : 0 < r) (h : v ≤ n) :
    directScore v r n e ≤ 37 := by
  by_cases h1 : v ≤ r
  · linarith [directScore_le_12 v r n e hr h1]
  · push_neg at h1
    rw [directScore_b2 v r n e h1 h]
    have hd : (v - r) / (n - r) ≤ 1 := (div_le_one (by linarith)).mpr (by linarith)
    linarith

lemma directScore_le_62 (v r n e : ℚ) (hrn : r < n) (hne : n < e) (hr : 0 < r)
    (h : v ≤ e) : directScore v r n e ≤ 62 := by
  by_cases h2 : v ≤ n
  · linarith [directScore_le_37 v r n e hrn hr h2]
  · push_neg at h2
    rw [directScore_b3 v r n e (by linarith) h2 h]
    have hd : (v - n) / (e - n) ≤ 1 := (div_le_one (by linarith)).mpr (by linarith)
    linarith

lemma directScore_ge_63 (v r n e : ℚ) (he : 0 < e) (h1 : r < v) (h2 : n < v)
    (h3 : e < v) : 63 ≤ directScore v r n e := by
  rw [directScore_b4 v r n e h1 h2 h3 he]
  have hd : 0 ≤ min 1 ((v - e) / e) :=
    le_min (by norm_num) (div_nonneg (by linarith) he.le)
  linarith

lemma directScore_ge_38 (v r n e : ℚ) (hne : n < e) (he : 0 < e) (h1 : r < v)
    (h2 : n < v) : 38 ≤ directScore v r n e := by
  by_cases h3 : v ≤ e
  · rw [directScore_b3 v r n e h1 h2 h3]
    have hd : 0 ≤ (v - n) / (e - n) := div_nonneg (by linarith) (by linarith)
    linarith
  · push_neg at h3
    linarith [directScore_ge_63 v r n e he h1 h2 h3]

lemma directScore_ge_13 (v r n e : ℚ) (hrn : r < n) (hne : n < e) (he : 0 < e)
    (h1 : r < v) : 13 ≤ directScore v r n e := by
  by_cases h2 : v ≤ n
  · rw [directScore_b2 v r n e h1 h2]
    have hd : 0 ≤ (v - r) / (n - r) := div_nonneg (by linarith) (by linarith)
    linarith
  · push_neg at h2
    linarith [directScore_ge_38 v r n e hne he h1 h2]

lemma directScore_mono (r n e : ℚ) (hr : 0 < r) (hrn : r < n) (hne : n < e)
    (v1 v2 : ℚ) (h : v1 ≤ v2) :
    directScore v1 r n e ≤ directScore v2 r n e := by
  have he : 0 < e := by linarith
  by_cases h1r : v1 ≤ r
  · by_cases h2r : v2 ≤ r
    · rw [directScore_b1 v1 r n e h1r hr, directScore_b1 v2 r n e h2r hr]
      have hx : v1 / r ≤ v2 / r := by gcongr
      nlinarith
    · push_neg at h2r
      linarith [directScore_le_12 v1 r n e hr h1r,
        directScore_ge_13 v2 r n e hrn hne he h2r]
  · push_neg at h1r
    have h2r : r < v2 := lt_of_lt_of_le h1r h
    by_cases h1n : v1 ≤ n
    · by_cases h2n : v2 ≤ n
      · rw [directScore_b2 v1 r n e h1r h1n, directScore_b2 v2 r n e h2r h2n]
        have hx : (v1 - r) / (n - r) ≤ (v2 - r) / (n - r) := by
          gcongr
          linarith
        linarith
      · push_neg at h2n
        linarith [directScore_le_37 v1 r n e hrn hr h1n,
          directScore_ge_38 v2 r n e hne he h2r h2n]
    · push_neg at h1n
      have h2n : n < v2 := lt_of_lt_of_le h1n h
      by_cases h1e : v1 ≤ e
      · by_cases h2e : v2 ≤ e
        · rw [directScore_b3 v1 r n e h1r h1n h1e,
            directScore_b3 v2 r n e h2r h2n h2e]
          have hx : (v1 - n) / (e - n) ≤ (v2 - n) / (e - n) := by
            gcongr
            linarith
          linarith
        · push_neg at h2e
          linarith [directScore_le_62 v1 r n e hrn hne hr h1e,
            directScore_ge_63 v2 r n e he h2r h2n h2e]
      · push_neg at h1e
        have h2e : e < v2 := lt_of_lt_of_le h1e h
        rw [directScore_b4 v1 r n e h1r h1n h1e he,
          directScore_b4 v2 r n e h2r h2n h2e he]
        have hx : (v1 - e) / e ≤ (v2 - e) / e := by gcongr
        have hm : min 1 ((v1 - e) / e) ≤ min 1 ((v2 - e) / e) :=
          min_le_min (le_refl 1) hx
        linarith

lemma roundHalfEven_nonneg (q : ℚ) (h : 0 ≤ q) : 0 ≤ roundHalfEven q := by
  have h0 : (0 : ℤ) ≤ ⌊q⌋ := Int.floor_nonneg.mpr h
  unfold roundHalfEven
  split_ifs <;> omega

lemma roundHalfEven_le (q : ℚ) (m : ℤ) (h : q ≤ m) : roundHalfEven q ≤ m := by
  have hle : ⌊q⌋ ≤ m := by
    have := Int.floor_le_floor h
    simpa using this
  have hplus : ¬ q - ⌊q⌋ < 1/2 → ⌊q⌋ + 1 ≤ m := by
    intro hge
    rcases eq_or_lt_of_le hle with heq | hlt2
    · exfalso
      have hq : (⌊q⌋ : ℚ) = (m : ℚ) := by exact_mod_cast heq
      have := Int.floor_le q
      push_neg at hge
      linarith
    · omega
  unfold roundHalfEven
  split_ifs with hA hB hC
  · exact hle
  · exact hplus hA
  · exact hle
  · exact hplus hA

lemma pyMin_fin (a b : ℚ) : pyMin (.fin a) (.fin b) = .fin (min a b) := by
  unfold pyMin pyLt
  by_cases h : b < a
  · simp [h, min_eq_right h.le]
  · simp [h, min_eq_left (not_lt.mp h)]

lemma pyMax_fin (a b : ℚ) : pyMax (.fin a) (.fin b) = .fin (max a b) := by
  unfold pyMax pyLt
  by_cases h : a < b
  · simp [h, max_eq_right h.le]
  · simp [h, max_eq_left (not_lt.mp h)]

lemma inverted_py_nan (r n e : ℚ) :
    inverted_piecewise_py .nan (.fin r) (.fin n) (.fin e) = some (.fin 100) := by
  by_cases he : (0:ℚ) < e
  · have he0 : e ≠ 0 := ne_of_gt he
    norm_num [inverted_piecewise_py, pyGe, pyLe, pyLt, pySub, pyDiv, pyMin,
      pyMul, pyAdd, he, he0]
  · norm_num [inverted_piecewise_py, pyGe, pyLe, pyLt, pySub, pyDiv, pyMin,
      pyMul, pyAdd, he]

lemma direct_py_nan (r n e : ℚ) :
    direct_piecewise_py .nan (.fin r) (.fin n) (.fin e) = some (.fin 100) := by
  by_cases he : (0:ℚ) < e
  · have he0 : e ≠ 0 := ne_of_gt he
    norm_num [direct_piecewise_py, pyGe, pyLe, pyLt, pySub, pyDiv, pyMin,
      pyMul, pyAdd, he, he0]
  · norm_num [direct_piecewise_py, pyGe, pyLe, pyLt, pySub, pyDiv, pyMin,
      pyMul, pyAdd, he]

lemma inverted_py_fin (v r n e : ℚ) :
    inverted_piecewise_py (.fin v) (.fin r) (.fin n) (.fin e) =
      (inverted_piecewise v r n e).map PyFloat.fin := by
  unfold inverted_piecewise_py inverted_piecewise
  by_cases hA : r ≤ v
  · rcases eq_or_ne r 0 with h0 | h0
    · subst h0
      simp [pyGe, pyLe, pySub, pyDiv, pdiv, hA]
    · simp [pyGe, pyLe, pySub, pyDiv, pdiv, pyMul, pyAdd, pyMax_fin, hA, h0]
  · by_cases hB : n ≤ v
    · rcases eq_or_ne (r - n) 0 with h0 | h0 <;>
        simp [pyGe, pyLe, pySub, pyDiv, pdiv, pyMul, pyAdd, hA, hB, h0]
    · by_cases hC : e ≤ v
      · rcases eq_or_ne (n - e) 0 with h0 | h0 <;>
          simp [pyGe, pyLe, pySub, pyDiv, pdiv, pyMul, pyAdd, hA, hB, hC, h0]
      · by_cases hE : (0:ℚ) < e
        · have h0 : e ≠ 0 := ne_of_gt hE
          simp [pyGe, pyLe, pyLt, pySub, pyDiv, pdiv, pyMul, pyAdd, pyMin_fin,
            hA, hB, hC, hE, h0]
        · simp [pyGe, pyLe, pyLt, pySub, pyDiv, pdiv, pyMul, pyAdd,
            hA, hB, hC, hE]

lemma direct_py_fin (v r n e : ℚ) :
    direct_piecewise_py (.fin v) (.fin r) (.fin n) (.fin e) =
      (direct_piecewise v r n e).map PyFloat.fin := by
  unfold direct_piecewise_py direct_piecewise
  by_cases hA : v ≤ r
  · by_cases hR : (0:ℚ) < r
    · have h0 : r ≠ 0 := ne_of_gt hR
      simp [pyGe, pyLe, pyLt, pyDiv, pdiv, pyMul, hA, hR, h0]
    · simp [pyGe, pyLe, pyLt, hA, hR]
  · by_cases hB : v ≤ n
    · rcases eq_or_ne (n - r) 0 with h0 | h0 <;>
        simp [pyGe, pyLe, pySub, pyDiv, pdiv, pyMul, pyAdd, hA, hB, h0]
    · by_cases hC : v ≤ e
      · rcases eq_or_ne (e - n) 0 with h0 | h0 <;>
          simp [pyGe, pyLe, pySub, pyDiv, pdiv, pyMul, pyAdd, hA, hB, hC, h0]
      · by_cases hE : (0:ℚ) < e
        · have h0 : e ≠ 0 := ne_of_gt hE
          simp [pyGe, pyLe, pyLt, pySub, pyDiv, pdiv, pyMul, pyAdd, pyMin_fin,
            hA, hB, hC, hE, h0]
        · simp [pyGe, pyLe, pyLt, pySub, pyDiv, pdiv, pyMul, pyAdd,
            hA, hB, hC, hE]

lemma raw_composite_eq (a b c d f g h : ℚ) :
    raw_composite a b c d f g h = some (compositeScore a b c d f g h) := by
  rw [raw_composite,
    inverted_piecewise_eq_some a RMSSD_RELAXED RMSSD_NORMAL RMSSD_ELEVATED
      (by norm_num [RMSSD_RELAXED])
      (by norm_num [RMSSD_RELAXED, RMSSD_NORMAL])
      (by norm_num [RMSSD_NORMAL, RMSSD_ELEVATED]),
    inverted_piecewise_eq_some b SDNN_RELAXED SDNN_NORMAL SDNN_ELEVATED
      (by norm_num [SDNN_RELAXED])
      (by norm_num [SDNN_RELAXED, SDNN_NORMAL])
      (by norm_num [SDNN_NORMAL, SDNN_ELEVATED]),
    inverted_piecewise_eq_some c PNN50_RELAXED PNN50_NORMAL PNN50_ELEVATED
      (by norm_num [PNN50_RELAXED])
      (by norm_num [PNN50_RELAXED, PNN50_NORMAL])
      (by norm_num [PNN50_NORMAL, PNN50_ELEVATED]),
    direct_piecewise_eq_some d SI_RELAXED SI_NORMAL SI_ELEVATED
      (by norm_num [SI_RELAXED, SI_NORMAL])
      (by norm_num [SI_NORMAL, SI_ELEVATED]),
    direct_piecewise_eq_some f LFHF_RELAXED LFHF_NORMAL LFHF_ELEVATED
      (by norm_num [LFHF_RELAXED, LFHF_NORMAL])
      (by norm_num [LFHF_NORMAL, LFHF_ELEVATED]),
    inverted_piecewise_eq_some g HF_RELAXED HF_NORMAL HF_ELEVATED
      (by norm_num [HF_RELAXED])
      (by norm_num [HF_RELAXED, HF_NORMAL])
      (by norm_num [HF_NORMAL, HF_ELEVATED]),
    direct_piecewise_eq_some h HR_RELAXED HR_NORMAL HR_ELEVATED
      (by norm_num [HR_RELAXED, HR_NORMAL])
      (by norm_num [HR_NORMAL, HR_ELEVATED])]
  rfl

lemma compute_stress_score_eq (a b c d f g h : ℚ) :
    compute_stress_score a b c d f g h =
      some (roundHalfEven (max 0 (min 100 (compositeScore a b c d f g h)))) := by
  rw [compute_stress_score, raw_composite_eq]
  rfl

/-- Evaluation of the "relaxed" reference vector of the benchmark: its exact
composite is 5179/520 = 9.9596..., which rounds to 10. -/
lemma relaxed_vector_eval :
    compute_stress_score 70 90 30 80 (2/5) 500 62 = some 10 := by
  have hre : roundHalfEven (5179/520) = 10 := by
    have hfloor : ⌊(5179/520:ℚ)⌋ = 9 := by norm_num [Int.floor_eq_iff]
    rw [roundHalfEven, hfloor]
    norm_num
  norm_num [compute_stress_score, raw_composite, inverted_piecewise,
    direct_piecewise, pdiv, WEIGHTS, RMSSD_RELAXED, RMSSD_NORMAL, RMSSD_ELEVATED,
    SDNN_RELAXED, SDNN_NORMAL, SDNN_ELEVATED, PNN50_RELAXED, PNN50_NORMAL,
    PNN50_ELEVATED, SI_RELAXED, SI_NORMAL, SI_ELEVATED, LFHF_RELAXED,
    LFHF_NORMAL, LFHF_ELEVATED, HF_RELAXED, HF_NORMAL, HF_ELEVATED,
    HR_RELAXED, HR_NORMAL, HR_ELEVATED, hre]

/-- C1: for every input of seven finite feature values, `compute_stress_score`
returns an integer in [0, 100]: the weighted sum of sub-scores is clamped to
[0, 100] and rounded to an integer. -/
theorem c1_score_in_range (a b c d f g h : ℚ) :
    ∃ z : ℤ, compute_stress_score a b c d f g h = some z ∧ 0 ≤ z ∧ z ≤ 100 := by
  refine ⟨_, compute_stress_score_eq a b c d f g h, ?_, ?_⟩
  · exact roundHalfEven_nonneg _ (le_max_left 0 _)
  · refine roundHalfEven_le _ 100 ?_
    push_cast
    exact max_le (by norm_num) (min_le_left _ _)

/-- C2 counterexample: with the direct ordering invariant satisfied
(0 < 1/2 < 2 < 4), `direct_piecewise` at the finite value -1 returns -24,
which lies outside [0, 100]. -/
theorem c2_counterexample :
    (0:ℚ) < 1/2 ∧ (1/2:ℚ) < 2 ∧ (2:ℚ) < 4 ∧
      direct_piecewise (-1) (1/2) 2 4 = some (-24) ∧ ¬ (0:ℚ) ≤ -24 := by
  refine ⟨by norm_num, by norm_num, by norm_num, ?_, by norm_num⟩
  norm_num [direct_piecewise, pdiv]

/-- C2 (amended): under the ordering invariant, `inverted_piecewise` returns
a value in [0, 100] for every finite input, and `direct_piecewise` does so
for every nonnegative finite input (for negative inputs its first branch
returns `value / relaxed * 12 < 0`). -/
theorem c2_piecewise_bounds :
    (∀ v r n e s : ℚ, n < r → e < n → 0 < e →
      inverted_piecewise v r n e = some s → 0 ≤ s ∧ s ≤ 100) ∧
    (∀ v r n e s : ℚ, 0 < r → r < n → n < e → 0 ≤ v →
      direct_piecewise v r n e = some s → 0 ≤ s ∧ s ≤ 100) := by
  constructor
  · intro v r n e s hrn hne he hs
    rw [inverted_piecewise_eq_some v r n e (show (0:ℚ) < r by linarith).ne'
      (sub_ne_zero.mpr (ne_of_gt hrn)) (sub_ne_zero.mpr (ne_of_gt hne)),
      Option.some_inj] at hs
    subst hs
    exact invertedScore_mem r n e hrn hne he v
  · intro v r n e s hr hrn hne hv hs
    rw [direct_piecewise_eq_some v r n e (sub_ne_zero.mpr (ne_of_gt hrn))
      (sub_ne_zero.mpr (ne_of_gt hne)), Option.some_inj] at hs
    subst hs
    exact directScore_mem r n e hr hrn hne v hv

/-- Witness for C2 (amended) at concrete inputs: `inverted_piecewise 50` over
the RMSSD band and `direct_piecewise 70` over the HR band. -/
theorem c2_piecewise_bounds_witness :
    ((0:ℚ) ≤ 25 ∧ (25:ℚ) ≤ 100) ∧ ((0:ℚ) ≤ 21 ∧ (21:ℚ) ≤ 100) :=
  ⟨c2_piecewise_bounds.1 50 60 40 20 25 (by norm_num) (by norm_num)
      (by norm_num) (by norm_num [inverted_piecewise, pdiv]),
   c2_piecewise_bounds.2 70 65 80 95 21 (by norm_num) (by norm_num)
      (by norm_num) (by norm_num) (by norm_num [direct_piecewise, pdiv])⟩

/-- C3 counterexample: `inverted_piecewise` with `relaxed = 0` takes its
first branch for any `value ≥ 0` and divides by `relaxed` unguarded, raising
a division fault (`none`). -/
theorem c3_counterexample : inverted_piecewise 5 0 (-1) (-2) = none := by
  norm_num [inverted_piecewise, pdiv]

/-- C3 (amended): the division by `relaxed` in `direct_piecewise` and the
division by `elevated` in the final branch of both functions are guarded and
return the documented fallbacks (0, resp. `t = 1` giving 100); but the
division by `relaxed` in the first branch of `inverted_piecewise` is
unguarded, so an inverted band with `relaxed = 0` faults whenever
`value ≥ relaxed`. -/
theorem c3_division_guards :
    (∀ v n e : ℚ, v ≤ 0 → direct_piecewise v 0 n e = some 0) ∧
    (∀ v r n : ℚ, v < r → v < n → v < 0 →
      inverted_piecewise v r n 0 = some 100) ∧
    (∀ v r n : ℚ, r < v → n < v → 0 < v →
      direct_piecewise v r n 0 = some 100) ∧
    (∀ v n e : ℚ, 0 ≤ v → inverted_piecewise v 0 n e = none) := by
  refine ⟨?_, ?_, ?_, ?_⟩
  · intro v n e hv
    rw [direct_piecewise, if_pos hv, if_neg (lt_irrefl 0)]
  · intro v r n h1 h2 h3
    rw [inverted_piecewise, if_neg (not_le.mpr h1), if_neg (not_le.mpr h2),
      if_neg (not_le.mpr h3), if_neg (lt_irrefl 0)]
    norm_num
  · intro v r n h1 h2 h3
    rw [direct_piecewise, if_neg (not_le.mpr h1), if_neg (not_le.mpr h2),
      if_neg (not_le.mpr h3), if_neg (lt_irrefl 0)]
    norm_num
  · intro v n e hv
    rw [inverted_piecewise, if_pos hv]
    simp [pdiv]

/-- Witness for C3 (amended) at concrete inputs. -/
theorem c3_division_guards_witness :
    direct_piecewise (-3) 0 2 4 = some 0 ∧
    inverted_piecewise (-5) 3 2 0 = some 100 ∧
    direct_piecewise 7 1 2 0 = some 100 ∧
    inverted_piecewise 4 0 (-1) (-2) = none :=
  ⟨c3_division_guards.1 (-3) 2 4 (by norm_num),
   c3_division_guards.2.1 (-5) 3 2 (by norm_num) (by norm_num) (by norm_num),
   c3_division_guards.2.2.1 7 1 2 (by norm_num) (by norm_num) (by norm_num),
   c3_division_guards.2.2.2 4 (-1) (-2) (by norm_num)⟩

/-- C4 counterexample: the relaxed reference vector does not score 9 — its
exact composite is 5179/520 = 9.9596..., rounding to 10. -/
theorem c4_counterexample :
    compute_stress_score 70 90 30 80 (2/5) 500 62 ≠ some 9 := by
  rw [relaxed_vector_eval]
  simp

/-- C4 (amended): with the default thresholds and weights,
`compute_stress_score (70, 90, 30, 80, 0.4, 500, 62)` returns 10. -/
theorem c4_relaxed_vector_score :
    compute_stress_score 70 90 30 80 (2/5) 500 62 = some 10 :=
  relaxed_vector_eval

/-- C5: under the ordering invariant, `inverted_piecewise` is non-increasing
and `direct_piecewise` non-decreasing in the feature value, including across
band boundaries. -/
theorem c5_monotonicity :
    (∀ r n e v1 v2 s1 s2 : ℚ, n < r → e < n → 0 < e → v1 ≤ v2 →
      inverted_piecewise v1 r n e = some s1 →
      inverted_piecewise v2 r n e = some s2 → s2 ≤ s1) ∧
    (∀ r n e v1 v2 s1 s2 : ℚ, 0 < r → r < n → n < e → v1 ≤ v2 →
      direct_piecewise v1 r n e = some s1 →
      direct_piecewise v2 r n e = some s2 → s1 ≤ s2) := by
  constructor
  · intro r n e v1 v2 s1 s2 hrn hne he hv h1 h2
    have hr0 : r ≠ 0 := (show (0:ℚ) < r by linarith).ne'
    have hrn0 : r - n ≠ 0 := sub_ne_zero.mpr (ne_of_gt hrn)
    have hne0 : n - e ≠ 0 := sub_ne_zero.mpr (ne_of_gt hne)
    rw [inverted_piecewise_eq_some v1 r n e hr0 hrn0 hne0, Option.some_inj] at h1
    rw [inverted_piecewise_eq_some v2 r n e hr0 hrn0 hne0, Option.some_inj] at h2
    subst h1
    subst h2
    exact invertedScore_anti r n e hrn hne he v1 v2 hv
  · intro r n e v1 v2 s1 s2 hr hrn hne hv h1 h2
    have hrn0 : n - r ≠ 0 := sub_ne_zero.mpr (ne_of_gt hrn)
    have hne0 : e - n ≠ 0 := sub_ne_zero.mpr (ne_of_gt hne)
    rw [direct_piecewise_eq_some v1 r n e hrn0 hne0, Option.some_inj] at h1
    rw [direct_piecewise_eq_some v2 r n e hrn0 hne0, Option.some_inj] at h2
    subst h1
    subst h2
    exact directScore_mono r n e hr hrn hne v1 v2 hv

/-- Witness for C5 at concrete inputs 1 ≤ 2 over the RMSSD and HR bands. -/
theorem c5_monotonicity_witness :
    ((963:ℚ)/10 ≤ 1963/20) ∧ ((12:ℚ)/65 ≤ 24/65) :=
  ⟨c5_monotonicity.1 60 40 20 1 2 (1963/20) (963/10) (by norm_num)
      (by norm_num) (by norm_num) (by norm_num)
      (by norm_num [inverted_piecewise, pdiv])
      (by norm_num [inverted_piecewise, pdiv]),
   c5_monotonicity.2 65 80 95 1 2 (12/65) (24/65) (by norm_num) (by norm_num)
      (by norm_num) (by norm_num) (by norm_num [direct_piecewise, pdiv])
      (by norm_num [direct_piecewise, pdiv])⟩

/-- C6: under the ordering invariant both interpolation functions return
exactly 12 at the relaxed cutoff, exactly 37 at the normal cutoff, and
exactly 62 at the elevated cutoff (so the band formulas meet at the
documented 12/13 and 37/38 seams). -/
theorem c6_boundary_values :
    (∀ r n e : ℚ, n < r → e < n → 0 < e →
      inverted_piecewise r r n e = some 12 ∧
      inverted_piecewise n r n e = some 37 ∧
      inverted_piecewise e r n e = some 62) ∧
    (∀ r n e : ℚ, 0 < r → r < n → n < e →
      direct_piecewise r r n e = some 12 ∧
      direct_piecewise n r n e = some 37 ∧
      direct_piecewise e r n e = some 62) := by
  constructor
  · intro r n e hrn hne he
    have hr : (0:ℚ) < r := by linarith
    have h1 : r ≠ 0 := hr.ne'
    have h2 : r - n ≠ 0 := sub_ne_zero.mpr (ne_of_gt hrn)
    have h3 : n - e ≠ 0 := sub_ne_zero.mpr (ne_of_gt hne)
    refine ⟨?_, ?_, ?_⟩
    · rw [inverted_piecewise_eq_some r r n e h1 h2 h3, Option.some_inj,
        invertedScore_b1 r r n e le_rfl, sub_self, zero_div]
      norm_num
    · rw [inverted_piecewise_eq_some n r n e h1 h2 h3, Option.some_inj,
        invertedScore_b2 n r n e hrn le_rfl, div_self h2]
      norm_num
    · rw [inverted_piecewise_eq_some e r n e h1 h2 h3, Option.some_inj,
        invertedScore_b3 e r n e (by linarith) hne le_rfl, div_self h3]
      norm_num
  · intro r n e hr hrn hne
    have h1 : r ≠ 0 := hr.ne'
    have h2 : n - r ≠ 0 := sub_ne_zero.mpr (ne_of_gt hrn)
    have h3 : e - n ≠ 0 := sub_ne_zero.mpr (ne_of_gt hne)
    refine ⟨?_, ?_, ?_⟩
    · rw [direct_piecewise_eq_some r r n e h2 h3, Option.some_inj,
        directScore_b1 r r n e le_rfl hr, div_self h1]
      norm_num
    · rw [direct_piecewise_eq_some n r n e h2 h3, Option.some_inj,
        directScore_b2 n r n e hrn le_rfl, div_self h2]
      norm_num
    · rw [direct_piecewise_eq_some e r n e h2 h3, Option.some_inj,
        directScore_b3 e r n e (by linarith) hne le_rfl, div_self h3]
      norm_num

/-- Witness for C6 at the default RMSSD (inverted) and HR (direct) bands. -/
theorem c6_boundary_values_witness :
    (inverted_piecewise 60 60 40 20 = some 12 ∧
     inverted_piecewise 40 60 40 20 = some 37 ∧
     inverted_piecewise 20 60 40 20 = some 62) ∧
    (direct_piecewise 65 65 80 95 = some 12 ∧
     direct_piecewise 80 65 80 95 = some 37 ∧
     direct_piecewise 95 65 80 95 = some 62) :=
  ⟨c6_boundary_values.1 60 40 20 (by norm_num) (by norm_num) (by norm_num),
   c6_boundary_values.2 65 80 95 (by norm_num) (by norm_num) (by norm_num)⟩

/-- C7 (spec-modelled): constructing a `FeatureWeights` configuration whose
seven weights do not sum to 1 within tolerance 1e-6 fails at construction
time. -/
theorem c7_weight_sum_validation (w : Feature → ℚ)
    (h : ¬ |w .rmssd + w .sdnn + w .pnn50 + w .si + w .lfhf + w .hf + w .hr - 1|
      ≤ 1/1000000) :
    FeatureWeights_construct w = none := by
  rw [FeatureWeights_construct, if_neg h]

/-- Witness for C7: the seven `badWeights` sum to 0.97 and are rejected. -/
theorem c7_weight_sum_validation_witness :
    FeatureWeights_construct badWeights = none :=
  c7_weight_sum_validation badWeights (by norm_num [badWeights, WEIGHTS, abs_le])

/-- C8: the final rounding of `compute_stress_score` is round-half-to-even:
whenever the clamped composite lies exactly halfway between two integers, the
returned integer is even (the even one of the two neighbors). -/
theorem c8_round_half_even (a b c d f g h comp : ℚ) (z : ℤ)
    (hc : raw_composite a b c d f g h = some comp)
    (hz : compute_stress_score a b c d f g h = some z)
    (hhalf : max 0 (min 100 comp) - ⌊max 0 (min 100 comp)⌋ = 1/2) :
    z % 2 = 0 ∧
      (z = ⌊max 0 (min 100 comp)⌋ ∨ z = ⌊max 0 (min 100 comp)⌋ + 1) := by
  rw [compute_stress_score, hc] at hz
  simp only [Option.map_some', Option.some_inj] at hz
  subst hz
  unfold roundHalfEven
  rw [hhalf, if_neg (lt_irrefl ((1:ℚ)/2)), if_neg (lt_irrefl ((1:ℚ)/2))]
  by_cases heven : ⌊max 0 (min 100 comp)⌋ % 2 = 0
  · rw [if_pos heven]
    exact ⟨heven, Or.inl rfl⟩
  · rw [if_neg heven]
    refine ⟨?_, Or.inr rfl⟩
    omega

/-- Witness for C8: the input (120, 160, 50, 0, 0, 800, 325/12) has clamped
composite exactly 1/2, and the score rounds down to the even neighbor 0. -/
theorem c8_round_half_even_witness :
    (0:ℤ) % 2 = 0 ∧
      ((0:ℤ) = ⌊max 0 (min 100 (1/2:ℚ))⌋ ∨
       (0:ℤ) = ⌊max 0 (min 100 (1/2:ℚ))⌋ + 1) :=
  c8_round_half_even 120 160 50 0 0 800 (325/12) (1/2) 0
    (by norm_num [raw_composite, inverted_piecewise, direct_piecewise, pdiv,
      WEIGHTS, RMSSD_RELAXED, RMSSD_NORMAL, RMSSD_ELEVATED, SDNN_RELAXED,
      SDNN_NORMAL, SDNN_ELEVATED, PNN50_RELAXED, PNN50_NORMAL, PNN50_ELEVATED,
      SI_RELAXED, SI_NORMAL, SI_ELEVATED, LFHF_RELAXED, LFHF_NORMAL,
      LFHF_ELEVATED, HF_RELAXED, HF_NORMAL, HF_ELEVATED, HR_RELAXED,
      HR_NORMAL, HR_ELEVATED])
    (by
      have hre : roundHalfEven (1/2) = 0 := by
        have hfloor : ⌊(1/2:ℚ)⌋ = 0 := by norm_num [Int.floor_eq_iff]
        rw [roundHalfEven, hfloor]
        norm_num
      norm_num [compute_stress_score, raw_composite, inverted_piecewise,
        direct_piecewise, pdiv, WEIGHTS, RMSSD_RELAXED, RMSSD_NORMAL,
        RMSSD_ELEVATED, SDNN_RELAXED, SDNN_NORMAL, SDNN_ELEVATED,
        PNN50_RELAXED, PNN50_NORMAL, PNN50_ELEVATED, SI_RELAXED, SI_NORMAL,
        SI_ELEVATED, LFHF_RELAXED, LFHF_NORMAL, LFHF_ELEVATED, HF_RELAXED,
        HF_NORMAL, HF_ELEVATED, HR_RELAXED, HR_NORMAL, HR_ELEVATED, hre])
    (by
      have h1 : max 0 (min 100 (1/2:ℚ)) = 1/2 := by norm_num
      have h2 : ⌊(1/2:ℚ)⌋ = 0 := by norm_num [Int.floor_eq_iff]
      rw [h1, h2]
      norm_num)

/-- C9: with Python float comparison semantics, a NaN value falls through
every branch comparison of both interpolation functions into the final
branch, where `min(1.0, NaN)` keeps 1.0, giving exactly 100.0; and
`compute_stress_score` on any inputs (NaN included) raises no error and
returns a defined integer. -/
theorem c9_nan_inputs :
    (∀ r n e : ℚ, inverted_piecewise_py .nan (.fin r) (.fin n) (.fin e) =
      some (.fin 100)) ∧
    (∀ r n e : ℚ, direct_piecewise_py .nan (.fin r) (.fin n) (.fin e) =
      some (.fin 100)) ∧
    (∀ p1 p2 p3 p4 p5 p6 p7 : PyFloat,
      ∃ z : ℤ, compute_stress_score_py p1 p2 p3 p4 p5 p6 p7 = some z) := by
  refine ⟨inverted_py_nan, direct_py_nan, ?_⟩
  intro p1 p2 p3 p4 p5 p6 p7
  have hinv : ∀ (x : PyFloat) (r n e : ℚ), r ≠ 0 → r - n ≠ 0 → n - e ≠ 0 →
      ∃ q : ℚ, inverted_piecewise_py x (.fin r) (.fin n) (.fin e) =
        some (.fin q) := by
    intro x r n e h1 h2 h3
    cases x with
    | nan => exact ⟨100, inverted_py_nan r n e⟩
    | fin v =>
        refine ⟨invertedScore v r n e, ?_⟩
        rw [inverted_py_fin, inverted_piecewise_eq_some v r n e h1 h2 h3]
        rfl
  have hdir : ∀ (x : PyFloat) (r n e : ℚ), n - r ≠ 0 → e - n ≠ 0 →
      ∃ q : ℚ, direct_piecewise_py x (.fin r) (.fin n) (.fin e) =
        some (.fin q) := by
    intro x r n e h2 h3
    cases x with
    | nan => exact ⟨100, direct_py_nan r n e⟩
    | fin v =>
        refine ⟨directScore v r n e, ?_⟩
        rw [direct_py_fin, direct_piecewise_eq_some v r n e h2 h3]
        rfl
  obtain ⟨q1, hq1⟩ := hinv p1 RMSSD_RELAXED RMSSD_NORMAL RMSSD_ELEVATED
    (by norm_num [RMSSD_RELAXED]) (by norm_num [RMSSD_RELAXED, RMSSD_NORMAL])
    (by norm_num [RMSSD_NORMAL, RMSSD_ELEVATED])
  obtain ⟨q2, hq2⟩ := hinv p2 SDNN_RELAXED SDNN_NORMAL SDNN_ELEVATED
    (by norm_num [SDNN_RELAXED]) (by norm_num [SDNN_RELAXED, SDNN_NORMAL])
    (by norm_num [SDNN_NORMAL, SDNN_ELEVATED])
  obtain ⟨q3, hq3⟩ := hinv p3 PNN50_RELAXED PNN50_NORMAL PNN50_ELEVATED
    (by norm_num [PNN50_RELAXED]) (by norm_num [PNN50_RELAXED, PNN50_NORMAL])
    (by norm_num [PNN50_NORMAL, PNN50_ELEVATED])
  obtain ⟨q4, hq4⟩ := hdir p4 SI_RELAXED SI_NORMAL SI_ELEVATED
    (by norm_num [SI_RELAXED, SI_NORMAL])
    (by norm_num [SI_NORMAL, SI_ELEVATED])
  obtain ⟨q5, hq5⟩ := hdir p5 LFHF_RELAXED LFHF_NORMAL LFHF_ELEVATED
    (by norm_num [LFHF_RELAXED, LFHF_NORMAL])
    (by norm_num [LFHF_NORMAL, LFHF_ELEVATED])
  obtain ⟨q6, hq6⟩ := hinv p6 HF_RELAXED HF_NORMAL HF_ELEVATED
    (by norm_num [HF_RELAXED]) (by norm_num [HF_RELAXED, HF_NORMAL])
    (by norm_num [HF_NORMAL, HF_ELEVATED])
  obtain ⟨q7, hq7⟩ := hdir p7 HR_RELAXED HR_NORMAL HR_ELEVATED
    (by norm_num [HR_RELAXED, HR_NORMAL])
    (by norm_num [HR_NORMAL, HR_ELEVATED])
  rw [compute_stress_score_py, hq1, hq2, hq3, hq4, hq5, hq6, hq7]
  simp [pyAdd, pyMul, pyMin_fin, pyMax_fin, pyRound]

/-- C10: with the default threshold table and weights, `compute_stress_score`
is total on all seven rational inputs — no division on the scoring path can
fault. -/
theorem c10_score_total (a b c d f g h : ℚ) :
    ∃ z : ℤ, compute_stress_score a b c d f g h = some z :=
  ⟨_, compute_stress_score_eq a b c d f g h⟩

end BenchmarkSystem
